import Mathlib

/-!
Verification of the question-uniqueness and difficulty-scoring engine of the
Ai-Labs repository (`server/services/uniquenessValidator.ts` and the difficulty
analyzer service).  The JavaScript code computes over IEEE doubles; here every
numeric value is embedded as an exact rational, and a JavaScript number that may
be NaN is embedded as `Option ℚ`, with `none` playing the role of NaN.  Each
arithmetic or comparison helper below mirrors the corresponding JavaScript
operation on such values (NaN propagates through arithmetic, and every ordering
comparison against NaN is false).
-/

set_option maxHeartbeats 1600000
set_option maxRecDepth 8000

/-- JavaScript addition on possibly-NaN numbers: NaN propagates. -/
def jadd : Option ℚ → Option ℚ → Option ℚ
  | some a, some b => some (a + b)
  | _, _ => none

/-- JavaScript subtraction on possibly-NaN numbers: NaN propagates. -/
def jsSub : Option ℚ → Option ℚ → Option ℚ
  | some a, some b => some (a - b)
  | _, _ => none

/-- `Math.max` on two possibly-NaN numbers: NaN if either argument is NaN. -/
def jsMax : Option ℚ → Option ℚ → Option ℚ
  | some a, some b => some (max a b)
  | _, _ => none

/-- `Math.abs` on a possibly-NaN number. -/
def jsAbs : Option ℚ → Option ℚ
  | some a => some |a|
  | none => none

/-- JavaScript division of possibly-NaN numbers.  A zero denominator is mapped
to `none`: in every call site of this development the numerator is zero
whenever the denominator is, so the JavaScript result there is `0/0 = NaN`. -/
def jsDiv : Option ℚ → Option ℚ → Option ℚ
  | some a, some b => if b = 0 then none else some (a / b)
  | _, _ => none

/-- JavaScript `x > c` for a possibly-NaN `x`: false on NaN. -/
def jsGT (x : Option ℚ) (c : ℚ) : Bool :=
  match x with
  | some v => decide (c < v)
  | none => false

/-- JavaScript `x >= c` for a possibly-NaN `x`: false on NaN. -/
def jsGE (x : Option ℚ) (c : ℚ) : Bool :=
  match x with
  | some v => decide (c ≤ v)
  | none => false

/-- JavaScript `x < c` for a possibly-NaN `x`: false on NaN. -/
def jsLT (x : Option ℚ) (c : ℚ) : Bool :=
  match x with
  | some v => decide (v < c)
  | none => false

/-- `Math.max(...arr)` over a (non-empty) array of possibly-NaN numbers:
NaN if any element is NaN, otherwise the maximum. -/
def jsMaxList : List (Option ℚ) → Option ℚ
  | [] => none
  | s :: rest => rest.foldl jsMax s

/-- `arr.reduce((a, b) => a + b, 0)` over possibly-NaN numbers. -/
def jsSum (l : List (Option ℚ)) : Option ℚ :=
  l.foldl jadd (some 0)

/-- `Math.round(x * 10) / 10` — round to one decimal place.  JavaScript
`Math.round` rounds half toward positive infinity, which on rationals is
`⌊x + 1/2⌋`. -/
def jsRound1 (x : ℚ) : ℚ :=
  ((⌊x * 10 + 1 / 2⌋ : ℤ) : ℚ) / 10

/-- A word character in the sense of the JavaScript `\w` class:
`[A-Za-z0-9_]`. -/
def isWordChar (c : Char) : Bool :=
  c.isAlphanum || c = '_'

/-- Accumulator form of `runsBy`: collects the maximal runs of characters
satisfying `p`, discarding the separating characters. -/
def runsAcc (p : Char → Bool) : List Char → List Char → List (List Char)
  | [], acc => if acc = [] then [] else [acc.reverse]
  | c :: cs, acc =>
      if p c then runsAcc p cs (c :: acc)
      else if acc = [] then runsAcc p cs []
      else acc.reverse :: runsAcc p cs []

/-- The maximal runs of characters satisfying `p`, in order. -/
def runsBy (p : Char → Bool) (cs : List Char) : List (List Char) :=
  runsAcc p cs []

/-- `tokenize` (uniquenessValidator.ts): lower-case, replace every character
that is neither a word character nor whitespace by a space, split on
whitespace runs, keep the words of length `> 2`, and collect them into a set.
The empty pieces produced by JavaScript `split(/\s+/)` at a leading separator
or on the empty string have length `0` and are removed by the length filter,
so splitting into maximal non-whitespace runs yields the same set. -/
def tokenize (text : String) : Finset String :=
  let cleaned := (text.data.map Char.toLower).map fun c =>
    if ¬ isWordChar c ∧ ¬ c.isWhitespace then ' ' else c
  (((runsBy (fun c => ¬ c.isWhitespace) cleaned).map String.mk).filter
    (fun w => 2 < w.length)).toFinset

/-- First pass of `extractStructure`: `replace(/\d+\.?\d*/g, 'NUM')`.
The scanner state is `0` outside a match, `1` inside the leading digit run,
and `2` inside the digit run after the optional decimal point; the marker is
emitted at the start of each match. -/
def replaceNumsAux : List Char → Nat → List Char
  | [], _ => []
  | c :: cs, 0 =>
      if c.isDigit then 'N' :: 'U' :: 'M' :: replaceNumsAux cs 1
      else c :: replaceNumsAux cs 0
  | c :: cs, 1 =>
      if c.isDigit then replaceNumsAux cs 1
      else if c = '.' then replaceNumsAux cs 2
      else c :: replaceNumsAux cs 0
  | c :: cs, _ =>
      if c.isDigit then replaceNumsAux cs 2
      else c :: replaceNumsAux cs 0

/-- Second pass of `extractStructure`: `replace(/[A-Z][a-z]+/g, 'WORD')`.
The Boolean state records whether the scanner is inside the lowercase tail of
a match (already emitted); a new match needs an uppercase letter followed by at
least one lowercase letter. -/
def replaceCapsAux : List Char → Bool → List Char
  | [], _ => []
  | [c], st => if st ∧ c.isLower then [] else [c]
  | c1 :: c2 :: cs, st =>
      if st ∧ c1.isLower then replaceCapsAux (c2 :: cs) true
      else if c1.isUpper ∧ c2.isLower then
        'W' :: 'O' :: 'R' :: 'D' :: replaceCapsAux cs true
      else c1 :: replaceCapsAux (c2 :: cs) false

/-- Third pass of `extractStructure`: `replace(/[a-z]+/g, 'word')`. -/
def replaceLowsAux : List Char → Bool → List Char
  | [], _ => []
  | c :: cs, st =>
      if c.isLower then
        if st then replaceLowsAux cs true
        else 'w' :: 'o' :: 'r' :: 'd' :: replaceLowsAux cs true
      else c :: replaceLowsAux cs false

/-- Fourth pass of `extractStructure`: `replace(/\s+/g, ' ')`. -/
def collapseWsAux : List Char → Bool → List Char
  | [], _ => []
  | c :: cs, st =>
      if c.isWhitespace then
        if st then collapseWsAux cs true
        else ' ' :: collapseWsAux cs true
      else c :: collapseWsAux cs false

/-- JavaScript `trim()`: drop whitespace from both ends. -/
def trimWs (cs : List Char) : List Char :=
  ((cs.dropWhile Char.isWhitespace).reverse.dropWhile Char.isWhitespace).reverse

/-- `extractStructure` (uniquenessValidator.ts): the structural skeleton —
digit runs become `NUM`, capitalized words become `WORD`, remaining lowercase
words become `word`, whitespace is collapsed, and the ends are trimmed, in
exactly this order. -/
def extractStructure (text : String) : String :=
  String.mk (trimWs (collapseWsAux (replaceLowsAux
    (replaceCapsAux (replaceNumsAux text.data 0) false) false) false))

/-- JavaScript `toLowerCase()` on a string, character by character. -/
def lowerString (w : String) : String :=
  String.mk (w.data.map Char.toLower)

/-- The measurement-unit vocabulary of `extractConcepts`. -/
def unitTerms : List String :=
  ["mol", "gram", "liter", "meter", "second", "kelvin", "pascal", "joule",
   "watt", "ampere", "volt", "ohm", "newton", "celsius", "fahrenheit"]

/-- The mathematical-operation vocabulary of `extractConcepts`. -/
def operationTerms : List String :=
  ["calculate", "solve", "find", "determine", "compute", "derive",
   "integrate", "differentiate"]

/-- The scientific-concept vocabulary of `extractConcepts`. -/
def scienceTerms : List String :=
  ["molarity", "concentration", "pressure", "temperature", "velocity",
   "acceleration", "force", "energy", "power", "current", "voltage",
   "resistance", "frequency", "wavelength", "ph", "buffer", "equilibrium",
   "reaction", "solution", "compound", "element", "atom", "molecule", "ion"]

/-- Greedy tail of a chemical-formula match
`\b[A-Z][a-z]?[0-9]*(?:[A-Z][a-z]?[0-9]*)*`, after the leading uppercase
letter has been consumed.  State `0` permits the optional single lowercase
letter; state `1` is inside the digit run.  Both states accept a digit or a
new uppercase letter; anything else ends the match.  The pattern is
deterministic, so the greedy scan is the regex match. -/
def formulaTail : Nat → List Char → List Char
  | _, [] => []
  | 0, c :: cs =>
      if c.isLower ∨ c.isDigit then c :: formulaTail 1 cs
      else if c.isUpper then c :: formulaTail 0 cs
      else []
  | _, c :: cs =>
      if c.isDigit then c :: formulaTail 1 cs
      else if c.isUpper then c :: formulaTail 0 cs
      else []

/-- The chemical-formula match of `extractConcepts` inside one maximal word
run.  The `\b` boundary can only hold at the start of the run, so the run
yields a match exactly when it begins with an uppercase letter, and the match
is the greedy formula prefix (original case preserved). -/
def formulaOf (w : String) : Option String :=
  match w.data with
  | c :: cs => if c.isUpper then some (String.mk (c :: formulaTail 0 cs)) else none
  | [] => none

/-- `extractConcepts` (uniquenessValidator.ts): the four vocabularies.  The
`\b(...)\b` word-boundary patterns match exactly the maximal `\w` runs that
equal a listed term case-insensitively (a term adjacent to another word
character has no boundary), and those matches are added lower-cased; formula
matches keep their original case. -/
def extractConcepts (text : String) : Finset String :=
  let runs := (runsBy isWordChar text.data).map String.mk
  let units := (runs.filter fun w => lowerString w ∈ unitTerms).map lowerString
  let operations := (runs.filter fun w => lowerString w ∈ operationTerms).map lowerString
  let science := (runs.filter fun w => lowerString w ∈ scienceTerms).map lowerString
  let formulas := runs.filterMap formulaOf
  (units ++ operations ++ science ++ formulas).toFinset

/-- Row of the Levenshtein dynamic program for the pair `([], ys)`, indexed by
the suffixes of `ys` from `ys` itself down to `[]`: the distance from the
empty string to a suffix is the suffix length. -/
def initRow : List Char → List Nat
  | [] => [0]
  | _ :: ys => (ys.length + 1) :: initRow ys

/-- One step of the Levenshtein dynamic program (uniquenessValidator.ts,
`levenshteinDistance`): from the row for `xs` compute the row for `x :: xs`,
each cell being `min(deletion + 1, min(insertion + 1, diagonal + cost))` with
unit substitution cost, exactly the `Math.min` expression of the source. -/
def levRow (x : Char) : List Char → List Nat → List Nat
  | [], p :: _ => [p + 1]
  | y :: ys, p0 :: ps =>
      let rest := levRow x ys ps
      min (p0 + 1)
        (min (rest.headD 0 + 1) (ps.headD 0 + if x = y then 0 else 1)) :: rest
  | _, _ => []

/-- The full dynamic-programming table of `levenshteinDistance`, built row by
row as in the source; the row for `(xs, ys)` lists the distances from `xs` to
every suffix of `ys`. -/
def levRows : List Char → List Char → List Nat
  | [], ys => initRow ys
  | x :: xs, ys => levRow x ys (levRows xs ys)

/-- The Levenshtein distance of two character lists: the head cell of the
final row of the dynamic program. -/
def levList (xs ys : List Char) : Nat :=
  (levRows xs ys).headD 0

/-- `levenshteinDistance` (uniquenessValidator.ts). -/
def levenshteinDistance (str1 str2 : String) : Nat :=
  levList str1.data str2.data

/-- `calculateLexicalSimilarity` (uniquenessValidator.ts): Jaccard index of the
two token sets.  The source divides the set sizes directly, so an empty union
produces `0/0 = NaN`, embedded as `none`. -/
def calculateLexicalSimilarity (text1 text2 : String) : Option ℚ :=
  let words1 := tokenize text1
  let words2 := tokenize text2
  let inter := words1 ∩ words2
  let uni := words1 ∪ words2
  if uni.card = 0 then none else some ((inter.card : ℚ) / (uni.card : ℚ))

/-- `calculateStructuralSimilarity` (uniquenessValidator.ts):
`1 − distance/maxLength` over the structural skeletons.  When both skeletons
are empty the source computes `1 − 0/0 = NaN`, embedded as `none`. -/
def calculateStructuralSimilarity (text1 text2 : String) : Option ℚ :=
  let structure1 := extractStructure text1
  let structure2 := extractStructure text2
  let distance := levenshteinDistance structure1 structure2
  let maxLength := max structure1.length structure2.length
  if maxLength = 0 then none
  else some (1 - (distance : ℚ) / (maxLength : ℚ))

/-- `calculateSemanticSimilarity` (uniquenessValidator.ts) in its local
fallback branch: the Gemini oracle is an external network call, so this
embedding takes the concept-set Jaccard fallback that the source uses whenever
that call fails.  The empty cases are special-cased by the source itself, so
the result is always a real number. -/
def calculateSemanticSimilarity (text1 text2 : String) : ℚ :=
  let concepts1 := extractConcepts text1
  let concepts2 := extractConcepts text2
  if concepts1.card = 0 ∧ concepts2.card = 0 then 1
  else if concepts1.card = 0 ∨ concepts2.card = 0 then 0
  else ((concepts1 ∩ concepts2).card : ℚ) / ((concepts1 ∪ concepts2).card : ℚ)

/-- `calculateSimilarity` (uniquenessValidator.ts): the fixed-weight
combination `0.3·lexical + 0.3·structural + 0.4·semantic`.  NaN in any
sub-score propagates to the result. -/
def calculateSimilarity (question1 question2 : String) : Option ℚ :=
  match calculateLexicalSimilarity question1 question2,
        calculateStructuralSimilarity question1 question2 with
  | some lexicalSim, some structuralSim =>
      some (lexicalSim * (3 / 10) + structuralSim * (3 / 10) +
        calculateSemanticSimilarity question1 question2 * (4 / 10))
  | _, _ => none

/-- `checkUniqueness` (uniquenessValidator.ts): `1.0` on an empty corpus,
otherwise `Math.max(0, 1 − Math.max(...similarities))`. -/
def checkUniqueness (newQuestion : String) (existingQuestions : List String) : Option ℚ :=
  if existingQuestions.length = 0 then some 1
  else
    let similarities := existingQuestions.map fun existing =>
      calculateSimilarity newQuestion existing
    let maxSimilarity := jsMaxList similarities
    jsMax (some 0) (jsSub (some 1) maxSimilarity)

/-- The ordered pairs `(i, j)` with `i < j < n`, in the order of the source's
nested loops (`i` outer, `j` inner from `i + 1`). -/
def pairIndices (n : ℕ) : List (ℕ × ℕ) :=
  (List.range n).flatMap fun i =>
    (List.range n).filterMap fun j => if i < j then some (i, j) else none

/-- Result record of `validateQuestionSet`. -/
structure ValidationResult where
  isValid : Bool
  duplicates : List (ℕ × ℕ × Option ℚ)
  avgUniqueness : Option ℚ
  recommendations : List String
deriving DecidableEq

/-- `validateQuestionSet` (uniquenessValidator.ts): pairwise similarities over
the question list, duplicates above the 0.9 threshold, average pairwise
uniqueness (1.0 when there are no pairs), validity, and advisory strings. -/
def validateQuestionSet (questions : List String) : ValidationResult :=
  let pairs := pairIndices questions.length
  let duplicates := pairs.filterMap fun p =>
    let similarity := calculateSimilarity (questions.getD p.1 "") (questions.getD p.2 "")
    if jsGT similarity (9 / 10) = true then some (p.1, p.2, similarity) else none
  let similarities := pairs.map fun p =>
    jsSub (some 1) (calculateSimilarity (questions.getD p.1 "") (questions.getD p.2 ""))
  let avgUniqueness :=
    if 0 < similarities.length then
      jsDiv (jsSum similarities) (some (similarities.length : ℚ))
    else some 1
  let isValid := (duplicates.length == 0) && jsGE avgUniqueness (7 / 10)
  let recommendations :=
    (if 0 < duplicates.length then
      ["Found " ++ toString duplicates.length ++ " highly similar question pairs",
       "Consider regenerating questions with higher variation parameters"]
     else []) ++
    (if jsLT avgUniqueness (7 / 10) = true then
      ["Overall uniqueness is below threshold",
       "Increase template variety or generation parameters"]
     else [])
  ⟨isValid, duplicates, avgUniqueness, recommendations⟩

/-- One finding of `identifyPlagiarism`; the risk level is kept as the source's
string literal. -/
structure PlagiarismCheck where
  student1 : String
  student2 : String
  similarity : Option ℚ
  riskLevel : String
deriving DecidableEq

/-- The risk classification of `identifyPlagiarism`: `high` above 0.9,
`medium` above 0.7, otherwise `low`; a NaN similarity fails both comparisons
and is `low`. -/
def riskLevelOf (similarity : Option ℚ) : String :=
  if jsGT similarity (9 / 10) = true then "high"
  else if jsGT similarity (7 / 10) = true then "medium"
  else "low"

/-- `identifyPlagiarism` (uniquenessValidator.ts): answers are
`(studentId, answer)` pairs; every unordered pair is scored and only the pairs
whose risk is above `low` are returned, in loop order. -/
def identifyPlagiarism (studentAnswers : List (String × String)) : List PlagiarismCheck :=
  (pairIndices studentAnswers.length).filterMap fun p =>
    let similarity := calculateSimilarity
      (studentAnswers.getD p.1 ("", "")).2 (studentAnswers.getD p.2 ("", "")).2
    let risk := riskLevelOf similarity
    if risk ≠ "low" then
      some ⟨(studentAnswers.getD p.1 ("", "")).1,
            (studentAnswers.getD p.2 ("", "")).1, similarity, risk⟩
    else none

/-- `assessQuestionDifficulty` (gemini service), as a function of the outcome
of the external Gemini call: `none` means the call failed (or returned an
unusable response), in which case the wrapper's own catch returns the default
5.0; on success the parsed score is returned, except that the source's
`result.difficultyScore || 5.0` turns a zero score into 5.0.  This wrapper
never throws: every failure of the oracle is caught inside it. -/
def assessQuestionDifficulty (oracleScore : Option ℚ) : ℚ :=
  match oracleScore with
  | some d => if d ≠ 0 then d else 5
  | none => 5

/-- The combination step of `analyzeDifficulty` (difficultyAnalyzer service):
blend `0.7·ai + 0.3·rule`, then, when a truthy target difficulty is supplied
(`0` is falsy in JavaScript), pull the blend one fifth of the way toward the
target and clamp to `[1, 10]`, and finally round to one decimal place. -/
def analyzeDifficultyCombine (aiAssessment ruleBasedScore : ℚ)
    (targetDifficulty : Option ℚ) : ℚ :=
  let finalScore := aiAssessment * (7 / 10) + ruleBasedScore * (3 / 10)
  let adjusted :=
    match targetDifficulty with
    | some t =>
        if t ≠ 0 then
          max 1 (min 10 (finalScore + (t - finalScore) * (1 / 5)))
        else finalScore
    | none => finalScore
  jsRound1 adjusted

/-- `analyzeDifficulty` (difficultyAnalyzer service), parameterized by the raw
oracle outcome and by the value of `applyRuleBasedScoring` on the question
text and subject (the claims under study hold the rule-based score fixed, so
it enters as a parameter).  Because `assessQuestionDifficulty` catches oracle
failures internally and returns 5.0, nothing inside the source's `try` block
can throw, and the `catch` branch of `analyzeDifficulty` (which would return
`targetDifficulty || 5.0`) is unreachable for oracle failures; the reachable
behavior is the full combination step applied to the wrapper's result. -/
def analyzeDifficulty (oracleScore : Option ℚ) (ruleBasedScore : ℚ)
    (targetDifficulty : Option ℚ) : ℚ :=
  analyzeDifficultyCombine (assessQuestionDifficulty oracleScore)
    ruleBasedScore targetDifficulty

/-- The three difficulty buckets of `getDifficultyDistribution`; the source
keys them by the strings `Easy (1-3)`, `Medium (4-6)` and `Hard (7-10)`. -/
structure DifficultyDistribution where
  easy : ℕ
  medium : ℕ
  hard : ℕ
deriving DecidableEq

/-- `getDifficultyDistribution` (difficultyAnalyzer service): count scores
`≤ 3` as easy, `≤ 6` as medium, the rest as hard. -/
def getDifficultyDistribution (scores : List ℚ) : DifficultyDistribution :=
  scores.foldl
    (fun dist score =>
      if score ≤ 3 then { dist with easy := dist.easy + 1 }
      else if score ≤ 6 then { dist with medium := dist.medium + 1 }
      else { dist with hard := dist.hard + 1 })
    ⟨0, 0, 0⟩

/-- Result record of `validateDifficultyBalance`. -/
structure BalanceResult where
  isBalanced : Bool
  recommendations : List String
  currentDistribution : DifficultyDistribution
deriving DecidableEq

/-- `validateDifficultyBalance` (difficultyAnalyzer service).  A custom target
distribution is modelled as the three bucket ratios in the fixed key order of
the default object.  On an empty score list every bucket count is zero, so the
observed share is `0/0 = NaN` (embedded as `none`), the absolute difference is
NaN, and the `difference > 0.15` test is false. -/
def validateDifficultyBalance (scores : List ℚ)
    (targetDistribution : Option (ℚ × ℚ × ℚ)) : BalanceResult :=
  let currentDist := getDifficultyDistribution scores
  let total := scores.length
  let target := targetDistribution.getD (1 / 4, 1 / 2, 1 / 4)
  let buckets : List (String × ℕ × ℚ) :=
    [("Easy (1-3)", currentDist.easy, target.1),
     ("Medium (4-6)", currentDist.medium, target.2.1),
     ("Hard (7-10)", currentDist.hard, target.2.2)]
  let step := fun (acc : Bool × List String) (b : String × ℕ × ℚ) =>
    let share : Option ℚ :=
      if total = 0 then none else some ((b.2.1 : ℚ) / (total : ℚ))
    let difference := jsAbs (jsSub share (some b.2.2))
    if jsGT difference (3 / 20) = true then
      (false,
       acc.2 ++ [if jsLT share b.2.2 = true then "Need more " ++ b.1 ++ " questions"
                 else "Too many " ++ b.1 ++ " questions"])
    else acc
  let r := buckets.foldl step (true, [])
  ⟨r.1, r.2, currentDist⟩

/-- Edit scripts with unit costs: `Edits n xs ys` holds when `xs` can be
transformed into `ys` by `n` single-character insertions, deletions and
substitutions (matched characters are free). -/
inductive Edits : ℕ → List Char → List Char → Prop
  | nil : Edits 0 [] []
  | keep (c : Char) {n xs ys} : Edits n xs ys → Edits n (c :: xs) (c :: ys)
  | subst (c d : Char) {n xs ys} : Edits n xs ys → Edits (n + 1) (c :: xs) (d :: ys)
  | ins (d : Char) {n xs ys} : Edits n xs ys → Edits (n + 1) xs (d :: ys)
  | del (c : Char) {n xs ys} : Edits n xs ys → Edits (n + 1) (c :: xs) ys

/-! Levenshtein theory: the dynamic program of `levenshteinDistance` satisfies
the textbook recurrence and computes the least cost of an edit script. -/

theorem levRows_nil_right (xs : List Char) : levRows xs [] = [xs.length] := by
  induction xs with
  | nil => rfl
  | cons x xs ih => simp [levRows, ih, levRow]

theorem levRows_cons_right (xs : List Char) (y : Char) (ys : List Char) :
    levRows xs (y :: ys) = levList xs (y :: ys) :: levRows xs ys := by
  induction xs with
  | nil => rfl
  | cons x xs ih =>
      conv_lhs =>
        rw [show levRows (x :: xs) (y :: ys)
              = levRow x (y :: ys) (levRows xs (y :: ys)) from rfl, ih]
      conv_rhs =>
        rw [show levList (x :: xs) (y :: ys)
              = (levRows (x :: xs) (y :: ys)).headD 0 from rfl,
            show levRows (x :: xs) (y :: ys)
              = levRow x (y :: ys) (levRows xs (y :: ys)) from rfl, ih]
      rfl

theorem levList_nil_left (ys : List Char) : levList [] ys = ys.length := by
  cases ys <;> simp [levList, levRows, initRow]

theorem levList_nil_right (xs : List Char) : levList xs [] = xs.length := by
  simp [levList, levRows_nil_right]

theorem levList_cons_cons (x : Char) (xs : List Char) (y : Char) (ys : List Char) :
    levList (x :: xs) (y :: ys) =
      min (levList xs (y :: ys) + 1)
        (min (levList (x :: xs) ys + 1)
          (levList xs ys + if x = y then 0 else 1)) := by
  conv_lhs => rw [levList]
  show (levRow x (y :: ys) (levRows xs (y :: ys))).headD 0 = _
  rw [levRows_cons_right]
  simp only [levRow, List.headD_cons]
  rfl

theorem edits_nil_left (ys : List Char) : Edits ys.length [] ys := by
  induction ys with
  | nil => exact Edits.nil
  | cons y ys ih => exact Edits.ins y ih

theorem edits_nil_right (xs : List Char) : Edits xs.length xs [] := by
  induction xs with
  | nil => exact Edits.nil
  | cons x xs ih => exact Edits.del x ih

theorem edits_refl (xs : List Char) : Edits 0 xs xs := by
  induction xs with
  | nil => exact Edits.nil
  | cons x xs ih => exact Edits.keep x ih

theorem edits_swap {n : ℕ} {xs ys : List Char} (h : Edits n xs ys) :
    Edits n ys xs := by
  induction h with
  | nil => exact Edits.nil
  | keep c _ ih => exact Edits.keep c ih
  | subst c d _ ih => exact Edits.subst d c ih
  | ins d _ ih => exact Edits.del d ih
  | del c _ ih => exact Edits.ins c ih

theorem edits_max (xs ys : List Char) :
    Edits (max xs.length ys.length) xs ys := by
  induction xs generalizing ys with
  | nil => simpa using edits_nil_left ys
  | cons x xs ih =>
      cases ys with
      | nil => simpa using edits_nil_right (x :: xs)
      | cons y ys =>
          have h := Edits.subst x y (ih ys)
          simpa [List.length_cons, Nat.succ_max_succ] using h

theorem levList_le_of_edits {n : ℕ} {xs ys : List Char}
    (h : Edits n xs ys) : levList xs ys ≤ n := by
  induction h with
  | nil => simp [levList_nil_left]
  | keep c h ih =>
      rw [levList_cons_cons]
      refine le_trans (le_trans (min_le_right _ _) (min_le_right _ _)) ?_
      simpa using ih
  | subst c d h ih =>
      rw [levList_cons_cons]
      refine le_trans (le_trans (min_le_right _ _) (min_le_right _ _)) ?_
      have : (if c = d then 0 else 1) ≤ 1 := by split <;> omega
      omega
  | ins d h ih =>
      rename_i m xs' ys'
      cases xs' with
      | nil => rw [levList_nil_left]; rw [levList_nil_left] at ih; simpa using ih
      | cons x xs'' =>
          rw [levList_cons_cons]
          refine le_trans (le_trans (min_le_right _ _) (min_le_left _ _)) ?_
          omega
  | del c h ih =>
      rename_i m xs' ys'
      cases ys' with
      | nil => rw [levList_nil_right]; rw [levList_nil_right] at ih; simpa using ih
      | cons y ys'' =>
          rw [levList_cons_cons]
          refine le_trans (min_le_left _ _) ?_
          omega

theorem edits_levList (xs ys : List Char) : Edits (levList xs ys) xs ys := by
  have key : ∀ n (xs ys : List Char), xs.length + ys.length ≤ n →
      Edits (levList xs ys) xs ys := by
    intro n
    induction n with
    | zero =>
        intro xs ys h
        have hx : xs = [] := List.length_eq_zero.mp (by omega)
        have hy : ys = [] := List.length_eq_zero.mp (by omega)
        subst hx; subst hy
        rw [levList_nil_left]; exact Edits.nil
    | succ n ih =>
        intro xs ys h
        match xs, ys with
        | [], ys => rw [levList_nil_left]; exact edits_nil_left ys
        | x :: xs, [] => rw [levList_nil_right]; exact edits_nil_right _
        | x :: xs, y :: ys =>
            rw [levList_cons_cons]
            have hxy : xs.length + (y :: ys).length ≤ n := by
              simp only [List.length_cons] at h ⊢; omega
            have hyx : (x :: xs).length + ys.length ≤ n := by
              simp only [List.length_cons] at h ⊢; omega
            have hdd : xs.length + ys.length ≤ n := by
              simp only [List.length_cons] at h; omega
            rcases le_total (levList xs (y :: ys) + 1)
                (min (levList (x :: xs) ys + 1)
                  (levList xs ys + if x = y then 0 else 1)) with hA | hA
            · rw [min_eq_left hA]
              exact Edits.del x (ih xs (y :: ys) hxy)
            · rw [min_eq_right hA]
              rcases le_total (levList (x :: xs) ys + 1)
                  (levList xs ys + if x = y then 0 else 1) with hB | hB
              · rw [min_eq_left hB]
                exact Edits.ins y (ih (x :: xs) ys hyx)
              · rw [min_eq_right hB]
                by_cases hc : x = y
                · subst hc
                  simpa using Edits.keep x (ih xs ys hdd)
                · rw [if_neg hc]
                  exact Edits.subst x y (ih xs ys hdd)
  exact key (xs.length + ys.length) xs ys le_rfl

theorem levList_self (xs : List Char) : levList xs xs = 0 :=
  Nat.le_zero.mp (levList_le_of_edits (edits_refl xs))

theorem levList_symm (xs ys : List Char) : levList xs ys = levList ys xs :=
  le_antisymm (levList_le_of_edits (edits_swap (edits_levList ys xs)))
    (levList_le_of_edits (edits_swap (edits_levList xs ys)))

theorem levList_le_max (xs ys : List Char) :
    levList xs ys ≤ max xs.length ys.length :=
  levList_le_of_edits (edits_max xs ys)

/-! Helper lemmas about the JavaScript-number embedding. -/

theorem foldl_jsMax_none (l : List (Option ℚ)) :
    l.foldl jsMax none = none := by
  induction l with
  | nil => rfl
  | cons x l ih => simpa [jsMax] using ih

theorem foldl_jsMax_of_none_mem (l : List (Option ℚ)) (a : Option ℚ)
    (h : none ∈ l) : l.foldl jsMax a = none := by
  induction l generalizing a with
  | nil => cases h
  | cons x l ih =>
      rcases List.mem_cons.mp h with hx | hx
      · subst hx
        show List.foldl jsMax (jsMax a none) l = _
        cases a <;> simpa [jsMax] using foldl_jsMax_none l
      · exact ih _ hx

theorem foldl_jsMax_some (l : List (Option ℚ)) (a : ℚ) (h : none ∉ l) :
    ∃ M, l.foldl jsMax (some a) = some M ∧ (M = a ∨ some M ∈ l) ∧ a ≤ M ∧
      ∀ v : ℚ, some v ∈ l → v ≤ M := by
  induction l generalizing a with
  | nil => exact ⟨a, rfl, Or.inl rfl, le_rfl, by intro v hv; cases hv⟩
  | cons x l ih =>
      have hx : x ≠ none := fun hx => h (hx ▸ List.mem_cons_self x l)
      obtain ⟨b, rfl⟩ := Option.ne_none_iff_exists'.mp hx
      have hl : none ∉ l := fun hm => h (List.mem_cons_of_mem _ hm)
      obtain ⟨M, h1, h2, h3, h4⟩ := ih (max a b) hl
      refine ⟨M, by simpa [jsMax] using h1, ?_, le_trans (le_max_left a b) h3, ?_⟩
      · rcases h2 with h2 | h2
        · rcases max_cases a b with ⟨he, _⟩ | ⟨he, _⟩
          · exact Or.inl (h2.trans he)
          · exact Or.inr (by rw [h2, he]; exact List.mem_cons_self _ _)
        · exact Or.inr (List.mem_cons_of_mem _ h2)
      · intro v hv
        rcases List.mem_cons.mp hv with hv | hv
        · have hvb : v = b := by simpa using hv
          rw [hvb]
          exact le_trans (le_max_right a b) h3
        · exact h4 v hv

theorem jsMaxList_of_none_mem {l : List (Option ℚ)} (h : none ∈ l) :
    jsMaxList l = none := by
  cases l with
  | nil => cases h
  | cons x l =>
      rcases List.mem_cons.mp h with hx | hx
      · subst hx; exact foldl_jsMax_none l
      · exact foldl_jsMax_of_none_mem l x hx

theorem jsMaxList_of_no_none {l : List (Option ℚ)} (hne : l ≠ [])
    (h : none ∉ l) :
    ∃ M, jsMaxList l = some M ∧ some M ∈ l ∧ ∀ v : ℚ, some v ∈ l → v ≤ M := by
  cases l with
  | nil => exact absurd rfl hne
  | cons x l =>
      have hx : x ≠ none := fun hx => h (hx ▸ List.mem_cons_self x l)
      obtain ⟨b, rfl⟩ := Option.ne_none_iff_exists'.mp hx
      have hl : none ∉ l := fun hm => h (List.mem_cons_of_mem _ hm)
      obtain ⟨M, h1, h2, h3, h4⟩ := foldl_jsMax_some l b hl
      refine ⟨M, h1, ?_, ?_⟩
      · rcases h2 with h2 | h2
        · subst h2; exact List.mem_cons_self _ _
        · exact List.mem_cons_of_mem _ h2
      · intro v hv
        rcases List.mem_cons.mp hv with hv | hv
        · have : v = b := by simpa using hv
          subst this; exact h3
        · exact h4 v hv

theorem jsMaxList_perm {l l' : List (Option ℚ)} (p : l.Perm l') :
    jsMaxList l = jsMaxList l' := by
  by_cases hn : none ∈ l
  · rw [jsMaxList_of_none_mem hn, jsMaxList_of_none_mem (p.mem_iff.mp hn)]
  · have hn' : none ∉ l' := fun h => hn (p.mem_iff.mpr h)
    cases hl : l with
    | nil =>
        have : l' = [] := by
          have := p.symm
          rw [hl] at this
          exact this.eq_nil
        rw [this]
    | cons x xl =>
        have hne : l ≠ [] := by rw [hl]; exact List.cons_ne_nil _ _
        have hne' : l' ≠ [] := by
          intro h0
          rw [h0] at p
          exact (List.cons_ne_nil x xl) (by rw [← hl]; exact p.eq_nil)
        rw [← hl]
        obtain ⟨M, e1, m1, u1⟩ := jsMaxList_of_no_none hne hn
        obtain ⟨M', e1', m1', u1'⟩ := jsMaxList_of_no_none hne' hn'
        rw [e1, e1']
        have h1 : M ≤ M' := u1' M (p.mem_iff.mp m1)
        have h2 : M' ≤ M := u1 M' (p.mem_iff.mpr m1')
        rw [le_antisymm h1 h2]

theorem foldl_jadd_map_some (l : List ℚ) (a : ℚ) :
    (l.map some).foldl jadd (some a) = some (a + l.sum) := by
  induction l generalizing a with
  | nil => simp
  | cons x l ih =>
      show (l.map some).foldl jadd (jadd (some a) (some x)) = _
      rw [show jadd (some a) (some x) = some (a + x) from rfl, ih]
      simp [add_assoc]

theorem jsSum_map_some (l : List ℚ) : jsSum (l.map some) = some l.sum := by
  rw [jsSum, foldl_jadd_map_some, zero_add]

theorem jsRound1_mono {x y : ℚ} (h : x ≤ y) : jsRound1 x ≤ jsRound1 y := by
  unfold jsRound1
  have hf : ⌊x * 10 + 1 / 2⌋ ≤ ⌊y * 10 + 1 / 2⌋ := Int.floor_mono (by linarith)
  have : ((⌊x * 10 + 1 / 2⌋ : ℤ) : ℚ) ≤ ((⌊y * 10 + 1 / 2⌋ : ℤ) : ℚ) := by
    exact_mod_cast hf
  linarith

theorem jsRound1_bounds (x : ℚ) :
    x - 1 / 20 < jsRound1 x ∧ jsRound1 x ≤ x + 1 / 20 := by
  unfold jsRound1
  have h1 : ((⌊x * 10 + 1 / 2⌋ : ℤ) : ℚ) ≤ x * 10 + 1 / 2 := Int.floor_le _
  have h2 : x * 10 + 1 / 2 - 1 < ((⌊x * 10 + 1 / 2⌋ : ℤ) : ℚ) := Int.sub_one_lt_floor _
  constructor <;> linarith

/-! Helper lemmas about the similarity sub-scores. -/

theorem string_length_data (s : String) : s.length = s.data.length := rfl

theorem string_length_eq_zero {s : String} : s.length = 0 ↔ s = "" := by
  rw [string_length_data, List.length_eq_zero, String.ext_iff]

theorem calculateLexicalSimilarity_range {a b : String} {s : ℚ}
    (h : calculateLexicalSimilarity a b = some s) : 0 ≤ s ∧ s ≤ 1 := by
  unfold calculateLexicalSimilarity at h
  by_cases hc : (tokenize a ∪ tokenize b).card = 0
  · rw [if_pos hc] at h; cases h
  · rw [if_neg hc, Option.some.injEq] at h
    have hpos : (0 : ℚ) < ((tokenize a ∪ tokenize b).card : ℚ) := by
      exact_mod_cast Nat.pos_of_ne_zero hc
    constructor
    · rw [← h]; positivity
    · rw [← h, div_le_one hpos]
      exact_mod_cast Finset.card_le_card Finset.inter_subset_union

theorem calculateStructuralSimilarity_range {a b : String} {s : ℚ}
    (h : calculateStructuralSimilarity a b = some s) : 0 ≤ s ∧ s ≤ 1 := by
  unfold calculateStructuralSimilarity at h
  by_cases hc : max (extractStructure a).length (extractStructure b).length = 0
  · rw [if_pos hc] at h; cases h
  · rw [if_neg hc, Option.some.injEq] at h
    have hpos : (0 : ℚ) <
        ((max (extractStructure a).length (extractStructure b).length : ℕ) : ℚ) := by
      exact_mod_cast Nat.pos_of_ne_zero hc
    have hd : levenshteinDistance (extractStructure a) (extractStructure b) ≤
        max (extractStructure a).length (extractStructure b).length := by
      rw [string_length_data, string_length_data]
      exact levList_le_max _ _
    have hd1 : (levenshteinDistance (extractStructure a) (extractStructure b) : ℚ) /
        ((max (extractStructure a).length (extractStructure b).length : ℕ) : ℚ) ≤ 1 := by
      rw [div_le_one hpos]
      exact_mod_cast hd
    have hd0 : (0 : ℚ) ≤
        (levenshteinDistance (extractStructure a) (extractStructure b) : ℚ) /
        ((max (extractStructure a).length (extractStructure b).length : ℕ) : ℚ) := by
      positivity
    constructor <;> rw [← h] <;> linarith

theorem calculateSemanticSimilarity_range (a b : String) :
    0 ≤ calculateSemanticSimilarity a b ∧ calculateSemanticSimilarity a b ≤ 1 := by
  simp only [calculateSemanticSimilarity]
  by_cases hb : (extractConcepts a).card = 0 ∧ (extractConcepts b).card = 0
  · rw [if_pos hb]; norm_num
  · rw [if_neg hb]
    by_cases ho : (extractConcepts a).card = 0 ∨ (extractConcepts b).card = 0
    · rw [if_pos ho]; norm_num
    · rw [if_neg ho]
      push_neg at ho
      have hc1 : (extractConcepts a).card ≤ (extractConcepts a ∪ extractConcepts b).card :=
        Finset.card_le_card Finset.subset_union_left
      have hc2 := Nat.pos_of_ne_zero ho.1
      have hpos : (0 : ℚ) < ((extractConcepts a ∪ extractConcepts b).card : ℚ) := by
        exact_mod_cast lt_of_lt_of_le hc2 hc1
      constructor
      · positivity
      · rw [div_le_one hpos]
        exact_mod_cast Finset.card_le_card Finset.inter_subset_union

theorem calculateSimilarity_range {a b : String} {s : ℚ}
    (h : calculateSimilarity a b = some s) : 0 ≤ s ∧ s ≤ 1 := by
  unfold calculateSimilarity at h
  cases hl : calculateLexicalSimilarity a b with
  | none => rw [hl] at h; cases h
  | some lv =>
      cases hs : calculateStructuralSimilarity a b with
      | none => rw [hl, hs] at h; cases h
      | some sv =>
          rw [hl, hs, Option.some.injEq] at h
          obtain ⟨hl1, hl2⟩ := calculateLexicalSimilarity_range hl
          obtain ⟨hs1, hs2⟩ := calculateStructuralSimilarity_range hs
          obtain ⟨hm1, hm2⟩ := calculateSemanticSimilarity_range a b
          constructor <;> rw [← h] <;> nlinarith

theorem calculateLexicalSimilarity_self {a : String} (h : tokenize a ≠ ∅) :
    calculateLexicalSimilarity a a = some 1 := by
  simp only [calculateLexicalSimilarity]
  rw [Finset.inter_self, Finset.union_self]
  have hc : (tokenize a).card ≠ 0 := fun h0 => h (Finset.card_eq_zero.mp h0)
  rw [if_neg hc, Option.some.injEq]
  exact div_self (by exact_mod_cast hc)

theorem calculateStructuralSimilarity_self {a : String}
    (h : extractStructure a ≠ "") :
    calculateStructuralSimilarity a a = some 1 := by
  simp only [calculateStructuralSimilarity]
  have hc : (extractStructure a).length ≠ 0 := fun h0 =>
    h (string_length_eq_zero.mp h0)
  rw [max_self]
  rw [if_neg hc, Option.some.injEq]
  have hd : levenshteinDistance (extractStructure a) (extractStructure a) = 0 :=
    levList_self _
  rw [hd]
  norm_num

theorem calculateSemanticSimilarity_self (a : String) :
    calculateSemanticSimilarity a a = 1 := by
  simp only [calculateSemanticSimilarity]
  rw [Finset.inter_self, Finset.union_self]
  by_cases h : (extractConcepts a).card = 0
  · rw [if_pos ⟨h, h⟩]
  · rw [if_neg (by simp [h]), if_neg (by simp [h])]
    exact div_self (by exact_mod_cast h)

theorem calculateSimilarity_self {a : String} (h1 : tokenize a ≠ ∅)
    (h2 : extractStructure a ≠ "") : calculateSimilarity a a = some 1 := by
  simp only [calculateSimilarity]
  rw [calculateLexicalSimilarity_self h1, calculateStructuralSimilarity_self h2,
    calculateSemanticSimilarity_self a]
  norm_num

theorem levenshteinDistance_symm (a b : String) :
    levenshteinDistance a b = levenshteinDistance b a :=
  levList_symm _ _

theorem calculateLexicalSimilarity_symm (a b : String) :
    calculateLexicalSimilarity a b = calculateLexicalSimilarity b a := by
  simp only [calculateLexicalSimilarity]
  rw [Finset.union_comm, Finset.inter_comm]

theorem calculateStructuralSimilarity_symm (a b : String) :
    calculateStructuralSimilarity a b = calculateStructuralSimilarity b a := by
  simp only [calculateStructuralSimilarity]
  rw [levenshteinDistance_symm, max_comm]

theorem calculateSemanticSimilarity_symm (a b : String) :
    calculateSemanticSimilarity a b = calculateSemanticSimilarity b a := by
  simp only [calculateSemanticSimilarity]
  rw [Finset.union_comm, Finset.inter_comm]
  by_cases h1 : (extractConcepts a).card = 0 <;>
    by_cases h2 : (extractConcepts b).card = 0 <;>
    simp [h1, h2]

theorem calculateSimilarity_symm (a b : String) :
    calculateSimilarity a b = calculateSimilarity b a := by
  simp only [calculateSimilarity]
  rw [calculateLexicalSimilarity_symm a b, calculateStructuralSimilarity_symm a b,
    calculateSemanticSimilarity_symm a b]

/-! Helper lemmas about the difficulty-score combination step. -/

theorem jsRound1_one : jsRound1 1 = 1 := by norm_num [jsRound1]

theorem jsRound1_ten : jsRound1 10 = 10 := by norm_num [jsRound1]

theorem analyzeDifficultyCombine_range (ai rule : ℚ) (t : Option ℚ)
    (h1 : 1 ≤ ai) (h2 : ai ≤ 10) (h3 : 1 ≤ rule) (h4 : rule ≤ 10) :
    1 ≤ analyzeDifficultyCombine ai rule t ∧
      analyzeDifficultyCombine ai rule t ≤ 10 := by
  have key : ∀ x : ℚ, 1 ≤ x → x ≤ 10 → 1 ≤ jsRound1 x ∧ jsRound1 x ≤ 10 := by
    intro x hx1 hx2
    exact ⟨jsRound1_one ▸ jsRound1_mono hx1, jsRound1_ten ▸ jsRound1_mono hx2⟩
  have hf1 : 1 ≤ ai * (7 / 10) + rule * (3 / 10) := by linarith
  have hf2 : ai * (7 / 10) + rule * (3 / 10) ≤ 10 := by linarith
  simp only [analyzeDifficultyCombine]
  match t with
  | none => exact key _ hf1 hf2
  | some tv =>
      dsimp only
      by_cases ht : tv ≠ 0
      · rw [if_pos ht]
        refine key _ (le_max_left 1 _) (max_le (by norm_num) (min_le_left 10 _))
      · rw [if_neg ht]
        exact key _ hf1 hf2

theorem analyzeDifficultyCombine_mono (ai rule t1 t2 : ℚ)
    (h0 : 0 < t1) (h : t1 ≤ t2) :
    analyzeDifficultyCombine ai rule (some t1) ≤
      analyzeDifficultyCombine ai rule (some t2) := by
  simp only [analyzeDifficultyCombine]
  rw [if_pos (ne_of_gt h0), if_pos (ne_of_gt (lt_of_lt_of_le h0 h))]
  refine jsRound1_mono (max_le_max le_rfl (min_le_min le_rfl (by linarith)))

/-! Concrete-evaluation helpers.  Rational arithmetic does not reduce inside
the kernel, so concrete similarity values are obtained by rewriting the
integer-valued pieces (set cardinalities, skeleton lengths, edit distances),
which do reduce, and finishing the arithmetic with `norm_num`. -/

theorem calculateSimilarity_abc_xyz :
    calculateSimilarity "abc" "xyz" = some (7 / 10) := by
  have hl : calculateLexicalSimilarity "abc" "xyz" = some 0 := by
    simp only [calculateLexicalSimilarity]
    rw [if_neg (by decide),
      show (tokenize "abc" ∩ tokenize "xyz").card = 0 from by decide,
      show (tokenize "abc" ∪ tokenize "xyz").card = 2 from by decide]
    norm_num
  have hs : calculateStructuralSimilarity "abc" "xyz" = some 1 := by
    simp only [calculateStructuralSimilarity]
    rw [if_neg (by decide),
      show levenshteinDistance (extractStructure "abc") (extractStructure "xyz") = 0
        from by decide,
      show max (extractStructure "abc").length (extractStructure "xyz").length = 4
        from by decide]
    norm_num
  have hm : calculateSemanticSimilarity "abc" "xyz" = 1 := by
    simp only [calculateSemanticSimilarity]
    rw [if_pos ⟨by decide, by decide⟩]
  simp only [calculateSimilarity, hl, hs, hm]
  norm_num

theorem calculateSimilarity_abcdef_abcxyz :
    calculateSimilarity "abc def" "abc xyz" = some (4 / 5) := by
  have hl : calculateLexicalSimilarity "abc def" "abc xyz" = some (1 / 3) := by
    simp only [calculateLexicalSimilarity]
    rw [if_neg (by decide),
      show (tokenize "abc def" ∩ tokenize "abc xyz").card = 1 from by decide,
      show (tokenize "abc def" ∪ tokenize "abc xyz").card = 3 from by decide]
    norm_num
  have hs : calculateStructuralSimilarity "abc def" "abc xyz" = some 1 := by
    simp only [calculateStructuralSimilarity]
    rw [if_neg (by decide),
      show levenshteinDistance (extractStructure "abc def")
        (extractStructure "abc xyz") = 0 from by decide,
      show max (extractStructure "abc def").length
        (extractStructure "abc xyz").length = 9 from by decide]
    norm_num
  have hm : calculateSemanticSimilarity "abc def" "abc xyz" = 1 := by
    simp only [calculateSemanticSimilarity]
    rw [if_pos ⟨by decide, by decide⟩]
  simp only [calculateSimilarity, hl, hs, hm]
  norm_num

theorem riskLevelOf_high {v : ℚ} (h : 9 / 10 < v) :
    riskLevelOf (some v) = "high" := by
  simp only [riskLevelOf, jsGT]
  rw [if_pos (decide_eq_true h)]

theorem riskLevelOf_medium {v : ℚ} (h1 : 7 / 10 < v) (h2 : ¬ 9 / 10 < v) :
    riskLevelOf (some v) = "medium" := by
  simp only [riskLevelOf, jsGT]
  rw [if_neg (by simpa using h2), if_pos (decide_eq_true h1)]

theorem riskLevelOf_low {v : ℚ} (h : ¬ 7 / 10 < v) :
    riskLevelOf (some v) = "low" := by
  have h2 : ¬ 9 / 10 < v := fun hc => h (lt_trans (by norm_num) hc)
  simp only [riskLevelOf, jsGT]
  rw [if_neg (by simpa using h2), if_neg (by simpa using h)]

/-- C1.  The claim asserts that `similarity` always returns a real number in
[0,1], never NaN, with the degenerate Jaccard and structural ratios
special-cased to 1.0.  The source has no such special case: on two empty
strings both token sets and both skeletons are empty, both ratios are
`0/0 = NaN`, and the combined score is NaN (`none`).  Whenever the score is a
real number it does lie in [0,1]. -/
theorem similarity_range_and_nan :
    calculateLexicalSimilarity "" "" = none ∧
    calculateStructuralSimilarity "" "" = none ∧
    calculateSimilarity "" "" = none ∧
    ∀ (a b : String) (s : ℚ), calculateSimilarity a b = some s → 0 ≤ s ∧ s ≤ 1 :=
  ⟨by decide, by decide, by decide, fun _ _ _ h => calculateSimilarity_range h⟩

/-- Witness for C1: the range part applied to the concrete pair
`("abc", "abc")`, whose similarity is the real number 1. -/
theorem similarity_range_and_nan_witness : 0 ≤ (1 : ℚ) ∧ (1 : ℚ) ≤ 1 :=
  similarity_range_and_nan.2.2.2 "abc" "abc" 1
    (calculateSimilarity_self (by decide) (by decide))

/-- C2.  Reflexivity fails on the code for the non-empty text `"ab"`: its
token set is empty (no token longer than two characters), so the lexical
Jaccard is `0/0 = NaN` and `similarity("ab","ab")` is NaN rather than 1.0.
For every text whose token set and structural skeleton are non-empty,
`similarity(t, t) = 1.0` holds exactly, with the semantic sub-score given by
the concept-set fallback. -/
theorem similarity_reflexivity :
    calculateSimilarity "ab" "ab" = none ∧ "ab" ≠ "" ∧
    ∀ t : String, tokenize t ≠ ∅ → extractStructure t ≠ "" →
      calculateSimilarity t t = some 1 :=
  ⟨by decide, by decide, fun _ h1 h2 => calculateSimilarity_self h1 h2⟩

/-- Witness for C2: the reflexivity part applied to `"abc"`. -/
theorem similarity_reflexivity_witness :
    calculateSimilarity "abc" "abc" = some 1 :=
  similarity_reflexivity.2.2 "abc" (by decide) (by decide)

/-- C4.  `levenshteinDistance` computes exactly the least number of
single-character insertions, deletions and substitutions transforming the
first string into the second (`Edits`), and takes the documented values on
the three test vectors. -/
theorem levenshteinDistance_exact :
    (∀ s1 s2 : String, Edits (levenshteinDistance s1 s2) s1.data s2.data ∧
       ∀ n, Edits n s1.data s2.data → levenshteinDistance s1 s2 ≤ n) ∧
    levenshteinDistance "kitten" "sitting" = 3 ∧
    levenshteinDistance "" "" = 0 ∧
    levenshteinDistance "abc" "abc" = 0 :=
  ⟨fun _ _ => ⟨edits_levList _ _, fun _ h => levList_le_of_edits h⟩,
   by decide, by decide, by decide⟩

/-- Witness for C4: minimality applied to the one-substitution edit script
from `"a"` to `"b"`. -/
theorem levenshteinDistance_exact_witness : levenshteinDistance "a" "b" ≤ 1 :=
  (levenshteinDistance_exact.1 "a" "b").2 1 (Edits.subst 'a' 'b' Edits.nil)

/-- C9.  Similarity is symmetric, as are the lexical Jaccard sub-score, the
concept-set semantic fallback and the Levenshtein distance. -/
theorem similarity_symmetric : ∀ a b : String,
    calculateSimilarity a b = calculateSimilarity b a ∧
    calculateLexicalSimilarity a b = calculateLexicalSimilarity b a ∧
    calculateSemanticSimilarity a b = calculateSemanticSimilarity b a ∧
    levenshteinDistance a b = levenshteinDistance b a :=
  fun a b => ⟨calculateSimilarity_symm a b, calculateLexicalSimilarity_symm a b,
    calculateSemanticSimilarity_symm a b, levenshteinDistance_symm a b⟩

/-- C10.  On the empty score list `validateDifficultyBalance` reports a
balanced distribution with no recommendations and zero bucket counts, for the
default target and for every custom target: every observed share is
`0/0 = NaN` and the `difference > 0.15` test is false on NaN. -/
theorem validateDifficultyBalance_empty :
    ∀ target : Option (ℚ × ℚ × ℚ),
      validateDifficultyBalance [] target =
        ⟨true, [], ⟨0, 0, 0⟩⟩ := by
  intro target
  rcases target with _ | ⟨a, b, c⟩ <;> rfl

/-- C5 counterexample.  The claim states that on an oracle failure
`analyzeDifficulty` returns the supplied target (here 9) and skips the
combination step.  In the source, `assessQuestionDifficulty` catches the
failure itself and returns the default 5.0, so `analyzeDifficulty` proceeds
with the combination: with rule score 10 it returns 7, not 9 and not 5, and
with rule score 1 it returns 4.8 — the rule-based score does influence the
result. -/
theorem analyzeDifficulty_oracle_failure_counterexample :
    analyzeDifficulty none 10 (some 9) = 7 ∧ (7 : ℚ) ≠ 9 ∧ (7 : ℚ) ≠ 5 ∧
    analyzeDifficulty none 1 (some 9) = 24 / 5 := by
  refine ⟨?_, by norm_num, by norm_num, ?_⟩
  · show analyzeDifficultyCombine 5 10 (some 9) = 7
    simp only [analyzeDifficultyCombine]
    rw [if_pos (by norm_num : (9 : ℚ) ≠ 0)]
    rw [show (5 : ℚ) * (7 / 10) + 10 * (3 / 10) +
          (9 - ((5 : ℚ) * (7 / 10) + 10 * (3 / 10))) * (1 / 5) = 7 by norm_num]
    rw [min_eq_right (by norm_num), max_eq_right (by norm_num)]
    norm_num [jsRound1]
  · show analyzeDifficultyCombine 5 1 (some 9) = 24 / 5
    simp only [analyzeDifficultyCombine]
    rw [if_pos (by norm_num : (9 : ℚ) ≠ 0)]
    rw [show (5 : ℚ) * (7 / 10) + 1 * (3 / 10) +
          (9 - ((5 : ℚ) * (7 / 10) + 1 * (3 / 10))) * (1 / 5) = 121 / 25 by norm_num]
    rw [min_eq_right (by norm_num), max_eq_right (by norm_num)]
    norm_num [jsRound1]

/-- C5 as amended.  On oracle failure `analyzeDifficulty` never raises: the
wrapper substitutes the default AI score 5.0 and the full combination step
runs with it, so the result is `analyzeDifficultyCombine 5 rule target`; it
stays within [1,10] whenever the rule-based score does (as the source
guarantees by clamping). -/
theorem analyzeDifficulty_oracle_failure_behavior :
    (∀ (rule : ℚ) (target : Option ℚ),
       analyzeDifficulty none rule target = analyzeDifficultyCombine 5 rule target) ∧
    (∀ (rule : ℚ) (target : Option ℚ), 1 ≤ rule → rule ≤ 10 →
       1 ≤ analyzeDifficulty none rule target ∧
         analyzeDifficulty none rule target ≤ 10) :=
  ⟨fun _ _ => rfl,
   fun rule target h1 h2 =>
     analyzeDifficultyCombine_range 5 rule target (by norm_num) (by norm_num) h1 h2⟩

/-- Witness for C5: the range part at rule score 5 with a target of 9. -/
theorem analyzeDifficulty_oracle_failure_behavior_witness :
    1 ≤ analyzeDifficulty none 5 (some 9) ∧ analyzeDifficulty none 5 (some 9) ≤ 10 :=
  analyzeDifficulty_oracle_failure_behavior.2 5 (some 9) (by norm_num) (by norm_num)

/-- C6 counterexample.  With AI score 5.2 and rule score 4.4 (both in [1,10])
the blend is 4.96; biasing toward the in-range target 4.99 gives 4.966, which
rounds to 5.0 — strictly past the target, refuting "never past the target"
for the rounded result. -/
theorem targetBias_counterexample :
    analyzeDifficultyCombine (26 / 5) (22 / 5) (some (499 / 100)) = 5 ∧
    (26 / 5 : ℚ) * (7 / 10) + (22 / 5) * (3 / 10) < 499 / 100 ∧
    (499 / 100 : ℚ) < 5 ∧ (1 : ℚ) ≤ 26 / 5 ∧ (26 / 5 : ℚ) ≤ 10 ∧
    (1 : ℚ) ≤ 22 / 5 ∧ (22 / 5 : ℚ) ≤ 10 ∧
    (1 : ℚ) ≤ 499 / 100 ∧ (499 / 100 : ℚ) ≤ 10 := by
  refine ⟨?_, by norm_num, by norm_num, by norm_num, by norm_num, by norm_num,
    by norm_num, by norm_num, by norm_num⟩
  simp only [analyzeDifficultyCombine]
  rw [if_pos (by norm_num : (499 : ℚ) / 100 ≠ 0)]
  rw [show (26 : ℚ) / 5 * (7 / 10) + 22 / 5 * (3 / 10) +
        (499 / 100 - ((26 : ℚ) / 5 * (7 / 10) + 22 / 5 * (3 / 10))) * (1 / 5) =
        2483 / 500 by norm_num]
  rw [min_eq_right (by norm_num), max_eq_right (by norm_num)]
  norm_num [jsRound1]

/-- C6 as amended.  For a fixed AI and rule score the result is monotone
non-decreasing in a supplied positive target; the pre-rounding biased value
lies between the unbiased blend and the target; the final result differs from
that value by at most 0.05 (the one-decimal rounding error, which is what can
carry it past the target); and the result is always in [1,10] when the AI and
rule scores are. -/
theorem targetBias_amended :
    (∀ ai rule t1 t2 : ℚ, 0 < t1 → t1 ≤ t2 →
       analyzeDifficultyCombine ai rule (some t1) ≤
         analyzeDifficultyCombine ai rule (some t2)) ∧
    (∀ ai rule t : ℚ, 1 ≤ ai → ai ≤ 10 → 1 ≤ rule → rule ≤ 10 → 1 ≤ t → t ≤ 10 →
       min (ai * (7 / 10) + rule * (3 / 10)) t ≤
         ai * (7 / 10) + rule * (3 / 10) +
           (t - (ai * (7 / 10) + rule * (3 / 10))) * (1 / 5) ∧
       ai * (7 / 10) + rule * (3 / 10) +
           (t - (ai * (7 / 10) + rule * (3 / 10))) * (1 / 5) ≤
         max (ai * (7 / 10) + rule * (3 / 10)) t ∧
       |analyzeDifficultyCombine ai rule (some t) -
           (ai * (7 / 10) + rule * (3 / 10) +
             (t - (ai * (7 / 10) + rule * (3 / 10))) * (1 / 5))| ≤ 1 / 20) ∧
    (∀ (ai rule : ℚ) (t : Option ℚ), 1 ≤ ai → ai ≤ 10 → 1 ≤ rule → rule ≤ 10 →
       1 ≤ analyzeDifficultyCombine ai rule t ∧
         analyzeDifficultyCombine ai rule t ≤ 10) := by
  refine ⟨fun ai rule t1 t2 h0 h => analyzeDifficultyCombine_mono ai rule t1 t2 h0 h,
    ?_, fun ai rule t h1 h2 h3 h4 => analyzeDifficultyCombine_range ai rule t h1 h2 h3 h4⟩
  intro ai rule t h1 h2 h3 h4 h5 h6
  have hf1 : 1 ≤ ai * (7 / 10) + rule * (3 / 10) := by linarith
  have hf2 : ai * (7 / 10) + rule * (3 / 10) ≤ 10 := by linarith
  have hmin : min (ai * (7 / 10) + rule * (3 / 10)) t ≤
      ai * (7 / 10) + rule * (3 / 10) +
        (t - (ai * (7 / 10) + rule * (3 / 10))) * (1 / 5) := by
    rcases le_total (ai * (7 / 10) + rule * (3 / 10)) t with h | h
    · exact min_le_iff.mpr (Or.inl (by linarith))
    · exact min_le_iff.mpr (Or.inr (by linarith))
  have hmax : ai * (7 / 10) + rule * (3 / 10) +
        (t - (ai * (7 / 10) + rule * (3 / 10))) * (1 / 5) ≤
      max (ai * (7 / 10) + rule * (3 / 10)) t := by
    rcases le_total (ai * (7 / 10) + rule * (3 / 10)) t with h | h
    · exact le_max_iff.mpr (Or.inr (by linarith))
    · exact le_max_iff.mpr (Or.inl (by linarith))
  refine ⟨hmin, hmax, ?_⟩
  have hx1 : 1 ≤ ai * (7 / 10) + rule * (3 / 10) +
      (t - (ai * (7 / 10) + rule * (3 / 10))) * (1 / 5) :=
    le_trans (le_min hf1 h5) hmin
  have hx10 : ai * (7 / 10) + rule * (3 / 10) +
      (t - (ai * (7 / 10) + rule * (3 / 10))) * (1 / 5) ≤ 10 :=
    le_trans hmax (max_le hf2 h6)
  simp only [analyzeDifficultyCombine]
  rw [if_pos (by linarith : t ≠ 0)]
  rw [min_eq_right hx10, max_eq_right hx1]
  obtain ⟨hb1, hb2⟩ := jsRound1_bounds (ai * (7 / 10) + rule * (3 / 10) +
    (t - (ai * (7 / 10) + rule * (3 / 10))) * (1 / 5))
  rw [abs_le]
  constructor <;> linarith

/-- Witness for C6: monotonicity at targets 2 ≤ 3, the betweenness and
rounding bound at `ai = rule = 5`, `t = 9`, and the range at no target. -/
theorem targetBias_amended_witness :
    analyzeDifficultyCombine 5 5 (some 2) ≤ analyzeDifficultyCombine 5 5 (some 3) ∧
    (min ((5 : ℚ) * (7 / 10) + 5 * (3 / 10)) 9 ≤
       (5 : ℚ) * (7 / 10) + 5 * (3 / 10) +
         (9 - ((5 : ℚ) * (7 / 10) + 5 * (3 / 10))) * (1 / 5) ∧
     (5 : ℚ) * (7 / 10) + 5 * (3 / 10) +
         (9 - ((5 : ℚ) * (7 / 10) + 5 * (3 / 10))) * (1 / 5) ≤
       max ((5 : ℚ) * (7 / 10) + 5 * (3 / 10)) 9 ∧
     |analyzeDifficultyCombine 5 5 (some 9) -
         ((5 : ℚ) * (7 / 10) + 5 * (3 / 10) +
           (9 - ((5 : ℚ) * (7 / 10) + 5 * (3 / 10))) * (1 / 5))| ≤ 1 / 20) ∧
    (1 ≤ analyzeDifficultyCombine 5 5 none ∧ analyzeDifficultyCombine 5 5 none ≤ 10) :=
  ⟨targetBias_amended.1 5 5 2 3 (by norm_num) (by norm_num),
   targetBias_amended.2.1 5 5 9 (by norm_num) (by norm_num) (by norm_num)
     (by norm_num) (by norm_num) (by norm_num),
   targetBias_amended.2.2 5 5 none (by norm_num) (by norm_num) (by norm_num)
     (by norm_num)⟩

/-- C3.  `checkUniqueness` returns exactly 1.0 on the empty corpus; on a
non-empty corpus whose pairwise similarities are all real it returns
`max 0 (1 − m)` where `m` is the greatest similarity against a corpus member;
and the result is invariant under any permutation of the corpus. -/
theorem checkUniqueness_spec :
    (∀ q : String, checkUniqueness q [] = some 1) ∧
    (∀ (q : String) (corpus : List String), corpus ≠ [] →
      (∀ c ∈ corpus, (calculateSimilarity q c).isSome = true) →
      ∃ m : ℚ, some m ∈ corpus.map (calculateSimilarity q) ∧
        (∀ v : ℚ, some v ∈ corpus.map (calculateSimilarity q) → v ≤ m) ∧
        checkUniqueness q corpus = some (max 0 (1 - m))) ∧
    (∀ (q : String) (l l' : List String), l.Perm l' →
      checkUniqueness q l = checkUniqueness q l') := by
  refine ⟨fun q => rfl, ?_, ?_⟩
  · intro q corpus hne hall
    have hnn : none ∉ corpus.map (calculateSimilarity q) := by
      intro hmem
      obtain ⟨c, hc, he⟩ := List.mem_map.mp hmem
      have h2 := hall c hc
      rw [he] at h2
      simp at h2
    have hsne : corpus.map (calculateSimilarity q) ≠ [] := by
      simpa using hne
    obtain ⟨M, e1, m1, u1⟩ := jsMaxList_of_no_none hsne hnn
    refine ⟨M, m1, u1, ?_⟩
    simp only [checkUniqueness]
    rw [if_neg (by simpa [List.length_eq_zero] using hne), e1]
    rfl
  · intro q l l' p
    rcases eq_or_ne l [] with rfl | hne
    · rw [p.symm.eq_nil]
    · have hne' : l' ≠ [] := fun h0 => hne (by rw [h0] at p; exact p.eq_nil)
      simp only [checkUniqueness]
      rw [if_neg (by simpa [List.length_eq_zero] using hne),
        if_neg (by simpa [List.length_eq_zero] using hne'),
        jsMaxList_perm (p.map (calculateSimilarity q))]

/-- Witness for C3: the empty corpus, the singleton corpus `["abc"]` against
itself, and a two-element corpus against its transposition. -/
theorem checkUniqueness_spec_witness :
    checkUniqueness "x" [] = some 1 ∧
    (∃ m : ℚ, some m ∈ (["abc"] : List String).map (calculateSimilarity "abc") ∧
      (∀ v : ℚ, some v ∈ (["abc"] : List String).map (calculateSimilarity "abc") → v ≤ m) ∧
      checkUniqueness "abc" ["abc"] = some (max 0 (1 - m))) ∧
    checkUniqueness "q" ["abc", "xyz"] = checkUniqueness "q" ["xyz", "abc"] :=
  ⟨checkUniqueness_spec.1 "x",
   checkUniqueness_spec.2.1 "abc" ["abc"] (by decide)
     (by
       intro c hc
       have hc' : c = "abc" := by simpa using hc
       rw [hc', calculateSimilarity_self (by decide) (by decide)]
       rfl),
   checkUniqueness_spec.2.2 "q" ["abc", "xyz"] ["xyz", "abc"]
     (List.Perm.swap "xyz" "abc" [])⟩

/-! Support for the pairwise detectors. -/

theorem pairIndices_mem {n i j : ℕ} :
    (i, j) ∈ pairIndices n ↔ i < j ∧ j < n := by
  simp only [pairIndices, List.mem_flatMap, List.mem_filterMap, List.mem_range]
  constructor
  · rintro ⟨a, ha, b, hb, he⟩
    by_cases hab : a < b
    · rw [if_pos hab, Option.some.injEq, Prod.mk.injEq] at he
      obtain ⟨rfl, rfl⟩ := he
      exact ⟨hab, hb⟩
    · rw [if_neg hab] at he; cases he
  · rintro ⟨hij, hjn⟩
    exact ⟨i, lt_trans hij hjn, j, hjn, by rw [if_pos hij]⟩

theorem pairIndices_two : pairIndices 2 = [(0, 1)] := rfl

/-- C7.  `validateQuestionSet` records exactly the pairs `i < j` whose
similarity exceeds 0.9 as duplicates; its average uniqueness is 1.0 below two
questions and otherwise the mean of `1 − similarity` over all unordered
pairs; and it is valid exactly when there are no duplicates and the average
uniqueness reaches 0.7. -/
theorem validateQuestionSet_spec :
    (∀ (qs : List String) (i j : ℕ) (s : Option ℚ),
       (i, j, s) ∈ (validateQuestionSet qs).duplicates ↔
         (i < j ∧ j < qs.length ∧
          s = calculateSimilarity (qs.getD i "") (qs.getD j "") ∧
          jsGT s (9 / 10) = true)) ∧
    (∀ qs : List String, qs.length < 2 →
       (validateQuestionSet qs).avgUniqueness = some 1) ∧
    (∀ (qs : List String) (vals : List ℚ),
       (pairIndices qs.length).map
           (fun p => calculateSimilarity (qs.getD p.1 "") (qs.getD p.2 "")) =
         vals.map some →
       2 ≤ qs.length →
       (validateQuestionSet qs).avgUniqueness =
         some ((vals.map fun v => 1 - v).sum / (vals.length : ℚ))) ∧
    (∀ qs : List String,
       (validateQuestionSet qs).isValid = true ↔
         ((validateQuestionSet qs).duplicates = [] ∧
          jsGE (validateQuestionSet qs).avgUniqueness (7 / 10) = true)) := by
  refine ⟨?_, ?_, ?_, ?_⟩
  · intro qs i j s
    simp only [validateQuestionSet, List.mem_filterMap]
    constructor
    · rintro ⟨⟨pi, pj⟩, hp, he⟩
      by_cases hgt : jsGT (calculateSimilarity (qs.getD pi "") (qs.getD pj ""))
          (9 / 10) = true
      · rw [if_pos hgt, Option.some.injEq, Prod.mk.injEq, Prod.mk.injEq] at he
        obtain ⟨rfl, rfl, rfl⟩ := he
        obtain ⟨h1, h2⟩ := pairIndices_mem.mp hp
        exact ⟨h1, h2, rfl, hgt⟩
      · rw [if_neg hgt] at he; cases he
    · rintro ⟨hij, hjn, rfl, hgt⟩
      exact ⟨(i, j), pairIndices_mem.mpr ⟨hij, hjn⟩, by rw [if_pos hgt]⟩
  · intro qs h
    have h01 : qs.length = 0 ∨ qs.length = 1 := by omega
    have hp : pairIndices qs.length = [] := by
      rcases h01 with h0 | h1
      · rw [h0]; rfl
      · rw [h1]; rfl
    simp only [validateQuestionSet, hp, List.map_nil, List.length_nil]
    rfl
  · intro qs vals hmap hlen
    have hm01 : ((0, 1) : ℕ × ℕ) ∈ pairIndices qs.length :=
      pairIndices_mem.mpr ⟨by omega, by omega⟩
    have hpne : pairIndices qs.length ≠ [] := List.ne_nil_of_mem hm01
    have hlens : (pairIndices qs.length).length = vals.length := by
      have h := congrArg List.length hmap
      simpa using h
    have hvpos : 0 < vals.length := by
      rcases Nat.eq_zero_or_pos vals.length with h0 | h0
      · exact absurd (List.length_eq_zero.mp (hlens.trans h0))  hpne
      · exact h0
    have hsim : (pairIndices qs.length).map
        (fun p => jsSub (some 1)
          (calculateSimilarity (qs.getD p.1 "") (qs.getD p.2 ""))) =
        (vals.map fun v => 1 - v).map some := by
      rw [show (fun p : ℕ × ℕ => jsSub (some 1)
            (calculateSimilarity (qs.getD p.1 "") (qs.getD p.2 ""))) =
          (jsSub (some 1)) ∘
            (fun p : ℕ × ℕ => calculateSimilarity (qs.getD p.1 "") (qs.getD p.2 ""))
          from rfl,
        ← List.map_map, hmap, List.map_map, List.map_map]
      rfl
    simp only [validateQuestionSet, hsim]
    rw [jsSum_map_some]
    simp only [List.length_map]
    rw [if_pos hvpos]
    simp only [jsDiv]
    rw [if_neg (by exact_mod_cast Nat.pos_iff_ne_zero.mp hvpos :
      ¬ ((vals.length : ℚ) = 0))]
  · intro qs
    simp only [validateQuestionSet, Bool.and_eq_true, beq_iff_eq,
      List.length_eq_zero]

/-- Witness for C7: the average-uniqueness clauses at the singleton list
`["a"]` and at `["abc", "xyz"]`, whose single pair has similarity 7/10. -/
theorem validateQuestionSet_spec_witness :
    (validateQuestionSet ["a"]).avgUniqueness = some 1 ∧
    (validateQuestionSet ["abc", "xyz"]).avgUniqueness =
      some (((([7 / 10] : List ℚ).map fun v => 1 - v).sum) /
        ((([7 / 10] : List ℚ).length : ℚ))) :=
  ⟨validateQuestionSet_spec.2.1 ["a"] (by norm_num),
   validateQuestionSet_spec.2.2.1 ["abc", "xyz"] [7 / 10]
     (by
       rw [show (["abc", "xyz"] : List String).length = 2 from rfl, pairIndices_two]
       simp only [List.map_cons, List.map_nil]
       rw [show ((["abc", "xyz"] : List String).getD 0 "") = "abc" from rfl,
         show ((["abc", "xyz"] : List String).getD 1 "") = "xyz" from rfl,
         calculateSimilarity_abc_xyz])
     (by norm_num)⟩

theorem identifyPlagiarism_pair_low (s1 s2 a b : String)
    (h : riskLevelOf (calculateSimilarity a b) = "low") :
    identifyPlagiarism [(s1, a), (s2, b)] = [] := by
  have hr : ¬ (riskLevelOf (calculateSimilarity a b) ≠ "low") := by
    rw [h]; simp
  show List.filterMap _ [(0, 1)] = []
  refine Eq.trans (List.filterMap_cons_none ?_) (List.filterMap_nil _)
  show (if riskLevelOf (calculateSimilarity a b) ≠ "low" then _ else none) = none
  exact if_neg hr

theorem filterMap_singleton_some {α β : Type} {f : α → Option β} {x : α}
    {y : β} (h : f x = some y) : List.filterMap f [x] = [y] := by
  rw [List.filterMap_cons_some h, List.filterMap_nil]

theorem identifyPlagiarism_pair_found (s1 s2 a b r : String)
    (h : riskLevelOf (calculateSimilarity a b) = r) (hne : r ≠ "low") :
    identifyPlagiarism [(s1, a), (s2, b)] =
      [⟨s1, s2, calculateSimilarity a b, r⟩] := by
  have hr : riskLevelOf (calculateSimilarity a b) ≠ "low" := by
    rw [h]; exact hne
  show List.filterMap _ [(0, 1)] = _
  refine filterMap_singleton_some ?_
  show (if riskLevelOf (calculateSimilarity a b) ≠ "low" then
      some (PlagiarismCheck.mk s1 s2 (calculateSimilarity a b)
        (riskLevelOf (calculateSimilarity a b)))
    else none) = some (PlagiarismCheck.mk s1 s2 (calculateSimilarity a b) r)
  rw [if_pos hr, h]

/-- C8.  `identifyPlagiarism` evaluated on four two-student answer sets: two
identical degenerate answers `"ab"` are silently omitted (their similarity is
NaN, hence risk `low`), although the claim requires risk `high` for identical
answers; two identical regular answers are reported `high` with similarity 1;
a pair with similarity 0.8 is reported `medium`; and a pair with similarity
0.7 (not above the threshold) is omitted. -/
theorem identifyPlagiarism_eval :
    identifyPlagiarism [("s1", "ab"), ("s2", "ab")] = [] ∧
    identifyPlagiarism [("s1", "abc def"), ("s2", "abc def")] =
      [⟨"s1", "s2", some 1, "high"⟩] ∧
    identifyPlagiarism [("s1", "abc def"), ("s2", "abc xyz")] =
      [⟨"s1", "s2", some (4 / 5), "medium"⟩] ∧
    identifyPlagiarism [("s1", "abc"), ("s2", "xyz")] = [] := by
  refine ⟨?_, ?_, ?_, ?_⟩
  · refine identifyPlagiarism_pair_low "s1" "s2" "ab" "ab" ?_
    rw [show calculateSimilarity "ab" "ab" = none from by decide]
    rfl
  · have hs : calculateSimilarity "abc def" "abc def" = some 1 :=
      calculateSimilarity_self (by decide) (by decide)
    rw [identifyPlagiarism_pair_found "s1" "s2" "abc def" "abc def" "high"
        (by rw [hs]; exact riskLevelOf_high (by norm_num)) (by decide), hs]
  · have hs := calculateSimilarity_abcdef_abcxyz
    rw [identifyPlagiarism_pair_found "s1" "s2" "abc def" "abc xyz" "medium"
        (by rw [hs]; exact riskLevelOf_medium (by norm_num) (by norm_num))
        (by decide), hs]
  · refine identifyPlagiarism_pair_low "s1" "s2" "abc" "xyz" ?_
    rw [calculateSimilarity_abc_xyz]
    exact riskLevelOf_low (by norm_num)
